import Mathlib

/-!
# Verification of `detect_people.py` (realtime-object-detection)

Shallow embedding of the single source file `src/detect_people.py`
(class `DemoPersonCounter` and the `main` menu loop) and proofs of the
frozen claims about it.

Modelling conventions:

* A video source's content is a finite list of frames; a capture handle
  (`cv2.VideoCapture`) is the content together with a read position
  (`CAP_PROP_POS_FRAMES`).  `cap.read()` returns the frame at the current
  position and advances it, or fails (`ret = False`) when exhausted —
  OpenCV reports both end-of-stream and mid-stream read faults through the
  same `ret = False`, which is also all the Python code inspects.
* Externally observable side effects of a run (releasing the capture,
  destroying display windows, showing a frame, invoking the detector,
  persisting a log record) are recorded in an ordered effect trace.
  The `persist` effect exists so that claims about the persisted log can
  be stated; `run_demo` in the source contains no persistence call, so the
  embedding never emits it.
* Nondeterministic inputs of a run (keys returned by `cv2.waitKey`,
  detector output, exceptions raised by the detector or by the
  render/display calls, delivery of `KeyboardInterrupt`) are supplied by
  an environment, indexed by the value of `self.frame_count` at the
  iteration where they are observed (a `KeyboardInterrupt` is modelled as
  delivered during the blocking `cap.read()` of an iteration, i.e. before
  `frame_count` is incremented for that frame).
* The dangling `elif key == ord(' '):` at line 178 has an empty suite
  (a syntax slip in the source); it is modelled as a no-op branch, i.e.
  the loop simply continues, like any other non-quit key.
-/

/-- A frame: pixel buffer abstracted to its dimensions plus an identity tag
used to track which frame flows where. -/
structure Frame where
  width : Nat
  height : Nat
  id : Nat
deriving DecidableEq, Repr

/-- A detection box as iterated over in `detect_persons`: class id
(`int(box.cls[0])`), corner coordinates (`box.xyxy[0]`, as ints) and the
confidence already rendered through Python's `{:.2f}` format (the float
itself is irrelevant to every claim; only the formatted text is drawn). -/
structure Det where
  cls : Nat
  x1 : Int
  y1 : Int
  x2 : Int
  y2 : Int
  confStr : String
deriving DecidableEq, Repr

/-- A drawing primitive issued on the annotated frame copy:
`cv2.rectangle` or `cv2.putText`. -/
inductive DrawOp
  | rect (x1 y1 x2 y2 : Int)
  | text (label : String) (x y : Int)
deriving DecidableEq, Repr

/-- The drawing calls `detect_persons` issues for one person box
(lines 105-110): the bounding rectangle, then the confidence label
`f'Personne {confidence:.2f}'` put at `(x1, y1 - 10)` — no clamping of
either coordinate. -/
def drawDet (d : Det) : List DrawOp :=
  [.rect d.x1 d.y1 d.x2 d.y2,
   .text ("Personne " ++ d.confStr) d.x1 (d.y1 - 10)]

/-- `DemoPersonCounter.detect_persons` (lines 75-112), given the boxes the
YOLO collaborator returned for the frame: counts boxes of class 0
("person") and accumulates, in iteration order, the drawing calls made on
the annotated copy.  Boxes of any other class are ignored. -/
def detect_persons : List Det → Nat × List DrawOp
  | [] => (0, [])
  | d :: ds =>
    let rest := detect_persons ds
    if d.cls = 0 then (rest.1 + 1, drawDet d ++ rest.2) else rest

/-- A capture handle: `cv2.VideoCapture` state, i.e. the stream content and
the current read position (`CAP_PROP_POS_FRAMES`). -/
structure Capture where
  frames : List Frame
  pos : Nat
deriving DecidableEq, Repr

/-- `cap.read()`: returns the frame at the current position and advances
the position; returns `none` (`ret = False`) when the stream is
exhausted or unreadable. -/
def Capture.read (c : Capture) : Option Frame × Capture :=
  match c.frames[c.pos]? with
  | none => (none, c)
  | some f => (some f, { c with pos := c.pos + 1 })

/-- Externally observable side effects of a run, in order. -/
inductive Effect
  | release
  | destroy
  | imshow (frameId : Nat)
  | detectCall (frameNumber : Nat)
  | persist (frameNumber personCount : Nat)
deriving DecidableEq, Repr

/-- Substring test used at line 54:
`'youtube.com' in str(source) or 'youtu.be' in str(source)`. -/
def isYoutubeSource (source : String) : Bool :=
  decide ("youtube.com".toList <:+: source.toList) ||
  decide ("youtu.be".toList <:+: source.toList)

/-- `DemoPersonCounter.get_youtube_stream_url` (lines 26-43).  The external
`yt_dlp` collaborator is abstracted as a function `extract` taking the
requested quality ceiling in pixels of height and the page URL, and
returning the direct stream URL or `none`; the source requests
`'best[height<=720]'`, i.e. ceiling 720, and converts any extractor
exception into a `None` return. -/
def get_youtube_stream_url (extract : Nat → String → Option String)
    (url : String) : Option String :=
  extract 720 url

/-- The source-resolution step at the head of `connect_to_source`
(lines 54-59): a YouTube-matching source is replaced by the extracted
stream URL, failure of the extraction aborts with `none`; any other
source string passes through unchanged. -/
def resolve_source (extract : Nat → String → Option String)
    (source : String) : Option String :=
  if isYoutubeSource source then get_youtube_stream_url extract source
  else some source

/-- `DemoPersonCounter.connect_to_source` (lines 45-73).  `content` maps a
resolved URL/path to the stream content behind it (`cv2.VideoCapture`).
After resolution the capture is opened, a probe frame is read; on success
the position is reset to 0 (line 68) and the live handle is returned with
no side effect; on probe failure the handle is released (line 71) and
`none` is returned.  Resolution failure returns `none` before any capture
is opened, hence with an empty effect trace. -/
def connect_to_source (extract : Nat → String → Option String)
    (content : String → List Frame) (source : String) :
    Option Capture × List Effect :=
  match resolve_source extract source with
  | none => (none, [])
  | some url =>
    let cap : Capture := { frames := content url, pos := 0 }
    match cap.read with
    | (some _, cap') => (some { cap' with pos := 0 }, [])
    | (none, _) => (none, [.release])

/-- The per-run nondeterministic inputs, indexed by the `frame_count`
value of the iteration observing them. -/
structure Env where
  /-- key returned by `cv2.waitKey(1) & 0xFF` after displaying the frame. -/
  keys : Nat → Option Char
  /-- the boxes the YOLO model returns for the frame. -/
  dets : Nat → List Det
  /-- whether the detection call raises an exception at this frame. -/
  detectFault : Nat → Bool
  /-- whether the overlay/display step raises an exception at this frame. -/
  renderFault : Nat → Bool
  /-- whether a `KeyboardInterrupt` is delivered during the blocking read
  of this iteration (indexed by the frame number that read would have
  produced). -/
  interrupt : Nat → Bool

/-- How the `while True` loop of `run_demo` was left. -/
inductive ExitKind
  | connectFail
  | eos
  | quit
  | interrupted
  | faulted
deriving DecidableEq, Repr

/-- The frame resize of lines 157-162: frames wider than 1280 are scaled
to width 1280.  The source computes the height as
`int(height * (1280 / width))` in IEEE doubles; it is modelled here as the
exact floor `height * 1280 / width`.  The two differ at rare inputs
(e.g. a 1432×537 frame yields 479 in doubles but the exact floor is 480),
so no claim about the resized height is settled through this definition;
nothing else in the run depends on the resized dimensions. -/
def resizeFrame (f : Frame) : Frame :=
  if f.width > 1280 then
    { width := 1280, height := f.height * 1280 / f.width, id := f.id }
  else f

/-- Output of the loop body of `run_demo`: effect trace, exit kind, final
`frame_count`, and the frames read (pre-resize), in order. -/
structure LoopOut where
  effects : List Effect
  exit : ExitKind
  frame_count : Nat
  processed : List Frame
deriving DecidableEq, Repr

/-- The `while True` body of `run_demo` (lines 148-177), iterated over the
remaining stream content, threading `self.frame_count`.  Each iteration:
blocking read (a `KeyboardInterrupt` delivered there leaves the loop; an
exhausted stream gives `ret = False` and breaks); `frame_count += 1`;
resize; `detect_persons` (an exception there leaves the loop via the
`except` clause); info overlay and `cv2.imshow` (an exception there
likewise); `cv2.waitKey` — `'q'` breaks, anything else (including the
empty `elif` branch for `' '`) continues. -/
def runLoop (env : Env) : List Frame → Nat → LoopOut
  | [], fc => { effects := [], exit := .eos, frame_count := fc, processed := [] }
  | f :: rest, fc =>
    if env.interrupt (fc + 1) then
      { effects := [], exit := .interrupted, frame_count := fc, processed := [] }
    else
      let fc' := fc + 1
      let fr := resizeFrame f
      if env.detectFault fc' then
        { effects := [.detectCall fc'], exit := .faulted, frame_count := fc',
          processed := [f] }
      else if env.renderFault fc' then
        { effects := [.detectCall fc'], exit := .faulted, frame_count := fc',
          processed := [f] }
      else if env.keys fc' = some 'q' then
        { effects := [.detectCall fc', .imshow fr.id], exit := .quit,
          frame_count := fc', processed := [f] }
      else
        let out := runLoop env rest fc'
        { effects := .detectCall fc' :: .imshow fr.id :: out.effects,
          exit := out.exit, frame_count := out.frame_count,
          processed := f :: out.processed }

/-- Result of one `run_demo` call: the Python return value, the effect
trace, how the loop exited, the final `self.frame_count`, and the frames
processed. -/
structure RunResult where
  ret : Bool
  effects : List Effect
  exit : ExitKind
  frame_count : Nat
  processed : List Frame
deriving DecidableEq, Repr

/-- `DemoPersonCounter.run_demo` (lines 138-188), with `fc0` the value of
`self.frame_count` on entry.  A failed `connect_to_source` returns
`False` at line 142 with only the effects the connect step produced.
Otherwise the loop runs on the connected capture's content from its
(reset) position, and the `finally` block (lines 184-188) releases the
capture, destroys all windows and — overriding any fall-through — returns
`True`, on every exit path of the `try`. -/
def run_demo (env : Env) (extract : Nat → String → Option String)
    (content : String → List Frame) (source : String) (fc0 : Nat) :
    RunResult :=
  match connect_to_source extract content source with
  | (none, effs) =>
    { ret := false, effects := effs, exit := .connectFail,
      frame_count := fc0, processed := [] }
  | (some cap, effs) =>
    let out := runLoop env (cap.frames.drop cap.pos) fc0
    { ret := true, effects := effs ++ out.effects ++ [.release, .destroy],
      exit := out.exit, frame_count := out.frame_count,
      processed := out.processed }

/-- One iteration of the menu loop in `main` that starts a run
(lines 236-263): the selected source is run, and afterwards — at the end
of the menu iteration, line 263 — `counter.frame_count` is set back to 0.
Returns the run result together with the counter value left for the next
menu iteration. -/
def menu_run (env : Env) (extract : Nat → String → Option String)
    (content : String → List Frame) (source : String) (fc0 : Nat) :
    RunResult × Nat :=
  (run_demo env extract content source fc0, 0)

/-- The frame numbers carried by the `detectCall` effects of a trace, in
order. -/
def detectNumsOf (es : List Effect) : List Nat :=
  es.filterMap fun e =>
    match e with
    | .detectCall i => some i
    | _ => none

/-- The `(frame_number, person_count)` pairs carried by the `persist`
effects of a trace, in order. -/
def persistedOf (es : List Effect) : List (Nat × Nat) :=
  es.filterMap fun e =>
    match e with
    | .persist i c => some (i, c)
    | _ => none

/-- The `frame_count` values assigned to the processed frames of a run, in
order: in the source, each processed frame increments `self.frame_count`
(line 154) and is then passed to detection (line 165), so these are also
exactly the frame numbers passed to detection. -/
def RunResult.frameNumbers (r : RunResult) : List Nat :=
  detectNumsOf r.effects

/-- The persisted log records a run appended, in order. -/
def RunResult.persisted (r : RunResult) : List (Nat × Nat) :=
  persistedOf r.effects

/-- Number of `cap.release()` calls in a run's trace. -/
def RunResult.releases (r : RunResult) : Nat :=
  r.effects.count .release

/-- Number of `cv2.destroyAllWindows()` calls in a run's trace. -/
def RunResult.destroys (r : RunResult) : Nat :=
  r.effects.count .destroy

/-- Number of `cv2.imshow` calls (display-window updates) in a run's
trace. -/
def RunResult.imshows (r : RunResult) : Nat :=
  (r.effects.filter fun e =>
    match e with
    | .imshow _ => true
    | _ => false).length

/-- Environment of a fully quiet run: no key pressed, detector returns no
boxes and never faults, rendering never faults, no interrupt delivered. -/
def cleanEnv : Env :=
  { keys := fun _ => none, dets := fun _ => [],
    detectFault := fun _ => false, renderFault := fun _ => false,
    interrupt := fun _ => false }

/-- A concrete 640×480 test frame. -/
def testFrame : Frame := { width := 640, height := 480, id := 0 }

/-- Extractor that always fails. -/
def noExtract : Nat → String → Option String := fun _ _ => none

/-- A source behind which exactly one frame is readable. -/
def oneFrameContent : String → List Frame := fun _ => [testFrame]

/-- A quiet run over a one-frame local file. -/
def oneFrameRun : RunResult :=
  run_demo cleanEnv noExtract oneFrameContent "demo.mp4" 0

/-- A source behind which nothing is readable (missing file, dead URL:
`cap.read()` fails at the connection probe). -/
def emptyContent : String → List Frame := fun _ => []

/-- A source behind which five frames are readable. -/
def fiveFrameContent : String → List Frame := fun _ =>
  [⟨640, 480, 1⟩, ⟨640, 480, 2⟩, ⟨640, 480, 3⟩, ⟨640, 480, 4⟩, ⟨640, 480, 5⟩]

/-- A YouTube page URL (matches the `'youtube.com' in str(source)` test). -/
def ytSource : String := "https://youtube.com/watch?v=abc"

/-- Environment in which the detection call raises an exception on the
first processed frame and everything else is quiet. -/
def faultEnv : Env :=
  { cleanEnv with detectFault := fun i => i == 1 }

/-- A person box whose top edge is 5 pixels from the top of the frame,
with confidence rendered as `"0.90"`. -/
def badDet : Det :=
  { cls := 0, x1 := 10, y1 := 5, x2 := 50, y2 := 60, confStr := "0.90" }

/-- A source behind which two frames are readable. -/
def twoFrameContent : String → List Frame := fun _ =>
  [⟨640, 480, 1⟩, ⟨640, 480, 2⟩]

/-- Environment in which the overlay/display step raises an exception on
the second processed frame and everything else is quiet. -/
def renderFaultEnv : Env :=
  { cleanEnv with renderFault := fun i => i == 2 }

/-! ## Helper lemmas -/

/-- Every effect the `while` loop emits is a detector call or a display
update: the loop body contains no release, destroy or persistence call. -/
theorem runLoop_effects_mem (env : Env) :
    ∀ (frames : List Frame) (fc : Nat) (e : Effect),
      e ∈ (runLoop env frames fc).effects →
      (∃ i, e = Effect.detectCall i) ∨ ∃ j, e = Effect.imshow j := by
  intro frames
  induction frames with
  | nil =>
    intro fc e h
    simp [runLoop] at h
  | cons f rest ih =>
    intro fc e h
    cases hI : env.interrupt (fc + 1) with
    | true => simp [runLoop, hI] at h
    | false =>
      cases hD : env.detectFault (fc + 1) with
      | true =>
        simp [runLoop, hI, hD] at h
        exact Or.inl ⟨fc + 1, h⟩
      | false =>
        cases hR : env.renderFault (fc + 1) with
        | true =>
          simp [runLoop, hI, hD, hR] at h
          exact Or.inl ⟨fc + 1, h⟩
        | false =>
          by_cases hK : env.keys (fc + 1) = some 'q'
          · simp [runLoop, hI, hD, hR, hK] at h
            rcases h with h | h
            · exact Or.inl ⟨fc + 1, h⟩
            · exact Or.inr ⟨(resizeFrame f).id, h⟩
          · simp [runLoop, hI, hD, hR, hK] at h
            rcases h with h | h | h
            · exact Or.inl ⟨fc + 1, h⟩
            · exact Or.inr ⟨(resizeFrame f).id, h⟩
            · exact ih (fc + 1) e h

/-- The loop never releases the capture. -/
theorem runLoop_count_release (env : Env) (frames : List Frame) (fc : Nat) :
    (runLoop env frames fc).effects.count Effect.release = 0 := by
  rw [List.count_eq_zero]
  intro hmem
  rcases runLoop_effects_mem env frames fc _ hmem with ⟨i, h⟩ | ⟨j, h⟩ <;>
    simp at h

/-- The loop never destroys the display windows. -/
theorem runLoop_count_destroy (env : Env) (frames : List Frame) (fc : Nat) :
    (runLoop env frames fc).effects.count Effect.destroy = 0 := by
  rw [List.count_eq_zero]
  intro hmem
  rcases runLoop_effects_mem env frames fc _ hmem with ⟨i, h⟩ | ⟨j, h⟩ <;>
    simp at h

/-- The loop never persists a log record. -/
theorem runLoop_persisted (env : Env) (frames : List Frame) (fc : Nat) :
    persistedOf (runLoop env frames fc).effects = [] := by
  simp only [persistedOf]
  rw [List.filterMap_eq_nil_iff]
  intro e he
  rcases runLoop_effects_mem env frames fc e he with ⟨i, rfl⟩ | ⟨j, rfl⟩ <;> rfl

/-- The frame numbers the loop passes to detection are consecutive,
starting one above the entry value of `frame_count`, one per frame read:
`frame_count` is incremented by exactly 1 (line 154) for each frame
`cap.read()` delivered, immediately before that frame reaches
`detect_persons` (line 165). -/
theorem runLoop_detectNums (env : Env) :
    ∀ (frames : List Frame) (fc : Nat),
      detectNumsOf (runLoop env frames fc).effects =
        List.range' (fc + 1) (runLoop env frames fc).processed.length := by
  intro frames
  induction frames with
  | nil =>
    intro fc
    simp [runLoop, detectNumsOf]
  | cons f rest ih =>
    intro fc
    cases hI : env.interrupt (fc + 1) with
    | true => simp [runLoop, hI, detectNumsOf]
    | false =>
      cases hD : env.detectFault (fc + 1) with
      | true => simp [runLoop, hI, hD, detectNumsOf, List.range'_one]
      | false =>
        cases hR : env.renderFault (fc + 1) with
        | true => simp [runLoop, hI, hD, hR, detectNumsOf, List.range'_one]
        | false =>
          by_cases hK : env.keys (fc + 1) = some 'q'
          · simp [runLoop, hI, hD, hR, hK, detectNumsOf, List.range'_one]
          · have hrec := ih (fc + 1)
            simp only [runLoop, hI, hD, hR, hK, detectNumsOf,
              List.filterMap_cons, Bool.false_eq_true, if_false, if_neg,
              List.length_cons] at hrec ⊢
            rw [List.range'_succ]
            rw [hrec]

/-- The final `frame_count` of the loop is the entry value plus the number
of frames read. -/
theorem runLoop_frame_count (env : Env) :
    ∀ (frames : List Frame) (fc : Nat),
      (runLoop env frames fc).frame_count =
        fc + (runLoop env frames fc).processed.length := by
  intro frames
  induction frames with
  | nil => intro fc; simp [runLoop]
  | cons f rest ih =>
    intro fc
    cases hI : env.interrupt (fc + 1) with
    | true => simp [runLoop, hI]
    | false =>
      cases hD : env.detectFault (fc + 1) with
      | true => simp [runLoop, hI, hD]
      | false =>
        cases hR : env.renderFault (fc + 1) with
        | true => simp [runLoop, hI, hD, hR]
        | false =>
          by_cases hK : env.keys (fc + 1) = some 'q'
          · simp [runLoop, hI, hD, hR, hK]
          · have hrec := ih (fc + 1)
            simp only [runLoop, hI, hD, hR, hK, Bool.false_eq_true,
              if_false, if_neg, List.length_cons] at hrec ⊢
            omega

/-- If the loop runs quietly (no quit key, no fault, no interrupt) up to
frame number `k`, the stream still has a frame to deliver there, and at
frame `k` the detection call or the overlay/display step raises, then the
loop leaves through the `except Exception` clause: it exits as faulted
with `frame_count` stopped at exactly `k`.  The faulting iteration may be
any iteration the loop reaches, and the fault may be of either kind (when
both are scheduled, the detection call raises first, as at line 165 before
lines 169-172). -/
theorem runLoop_fault_at (env : Env) :
    ∀ (frames : List Frame) (fc k : Nat),
      fc < k → k ≤ fc + frames.length →
      (∀ j, fc < j → j < k →
        env.keys j ≠ some 'q' ∧ env.detectFault j = false ∧
        env.renderFault j = false ∧ env.interrupt j = false) →
      env.interrupt k = false →
      (env.detectFault k = true ∨ env.renderFault k = true) →
      (runLoop env frames fc).exit = ExitKind.faulted ∧
      (runLoop env frames fc).frame_count = k := by
  intro frames
  induction frames with
  | nil =>
    intro fc k h1 h2 _ _ _
    simp only [List.length_nil] at h2
    omega
  | cons f rest ih =>
    intro fc k h1 h2 hquiet hik hfault
    by_cases hk : k = fc + 1
    · subst hk
      rcases hfault with hd | hr
      · constructor <;> simp [runLoop, hik, hd]
      · cases hd2 : env.detectFault (fc + 1) with
        | true => constructor <;> simp [runLoop, hik, hd2]
        | false => constructor <;> simp [runLoop, hik, hd2, hr]
    · obtain ⟨hq, hdf, hrf, hif⟩ := hquiet (fc + 1) (by omega) (by omega)
      have h2' : k ≤ fc + 1 + rest.length := by
        simp only [List.length_cons] at h2
        omega
      have hrec := ih (fc + 1) k (by omega) h2'
        (fun j hj1 hj2 => hquiet j (by omega) hj2) hik hfault
      simpa [runLoop, hif, hdf, hrf, hq] using hrec

/-- The trace of a `connect_to_source` call is empty or a single release:
the only side effect the connection step can produce is releasing the
probe capture at line 71. -/
theorem connect_to_source_effects (extract : Nat → String → Option String)
    (content : String → List Frame) (source : String) :
    (connect_to_source extract content source).2 = [] ∨
    (connect_to_source extract content source).2 = [Effect.release] := by
  unfold connect_to_source
  cases hres : resolve_source extract source with
  | none => simp [hres]
  | some url =>
    rcases h : Capture.read { frames := content url, pos := 0 } with ⟨o, cap'⟩
    cases o with
    | none => simp [hres, h]
    | some f => simp [hres, h]

/-- `detectNumsOf` distributes over trace concatenation. -/
theorem detectNumsOf_append (a b : List Effect) :
    detectNumsOf (a ++ b) = detectNumsOf a ++ detectNumsOf b := by
  simp only [detectNumsOf, List.filterMap_append]

/-- `persistedOf` distributes over trace concatenation. -/
theorem persistedOf_append (a b : List Effect) :
    persistedOf (a ++ b) = persistedOf a ++ persistedOf b := by
  simp only [persistedOf, List.filterMap_append]

/-- A successful `connect_to_source` produced no side effect and returns
the full stream content with the read position reset to 0 (line 68). -/
theorem connect_to_source_success (extract : Nat → String → Option String)
    (content : String → List Frame) (source : String) (cap : Capture)
    (effs : List Effect)
    (h : connect_to_source extract content source = (some cap, effs)) :
    effs = [] ∧ ∃ url, resolve_source extract source = some url ∧
      cap = { frames := content url, pos := 0 } ∧ content url ≠ [] := by
  unfold connect_to_source at h
  cases hres : resolve_source extract source with
  | none => rw [hres] at h; simp at h
  | some url =>
    rw [hres] at h
    cases hc : content url with
    | nil =>
      simp only [Capture.read, hc, List.getElem?_nil] at h
      simp at h
    | cons f fs =>
      simp only [Capture.read, hc, List.getElem?_cons_zero] at h
      simp only [Prod.mk.injEq, Option.some.injEq] at h
      exact ⟨h.2.symm, url, rfl, by simp [hc, ← h.1], by simp [hc]⟩

/-! ## Claim theorems -/

/-- Claim C1: for every run started by `run_demo` on a successfully
connected source, the release step — closing the capture handle and
destroying the display windows, the `finally` block of lines 184-187 —
executes exactly once, whatever exit path the loop takes (graceful
end-of-stream, read failure, user quit key, `KeyboardInterrupt`, or any
per-iteration exception; all of these are covered by the quantification
over the environment). -/
theorem run_demo_release_exactly_once
    (env : Env) (extract : Nat → String → Option String)
    (content : String → List Frame) (source : String) (fc0 : Nat)
    (cap : Capture) (effs : List Effect)
    (h : connect_to_source extract content source = (some cap, effs)) :
    (run_demo env extract content source fc0).releases = 1 ∧
    (run_demo env extract content source fc0).destroys = 1 := by
  obtain ⟨he, -⟩ := connect_to_source_success extract content source cap effs h
  subst he
  simp only [run_demo, h, RunResult.releases, RunResult.destroys,
    List.nil_append]
  constructor <;>
    simp [List.count_append, runLoop_count_release, runLoop_count_destroy,
      List.count_cons]

/-- Claim C1 witness: a quiet one-frame run connects successfully and
releases the capture and the windows exactly once. -/
theorem run_demo_release_exactly_once_witness :
    connect_to_source noExtract oneFrameContent "demo.mp4" =
      (some { frames := [testFrame], pos := 0 }, []) ∧
    (run_demo cleanEnv noExtract oneFrameContent "demo.mp4" 0).releases = 1 ∧
    (run_demo cleanEnv noExtract oneFrameContent "demo.mp4" 0).destroys = 1 :=
  ⟨by decide,
   run_demo_release_exactly_once cleanEnv noExtract oneFrameContent
     "demo.mp4" 0 { frames := [testFrame], pos := 0 } [] (by decide)⟩

/-- Claim C2 counterexample: a quiet run over a one-frame source processes
exactly one frame (it is counted and passed to detection) yet appends no
persisted record at all — `run_demo` contains no logging call, so the
persisted log does not hold one well-formed event per processed frame as
the claim states. -/
theorem run_demo_no_log_counterexample :
    oneFrameRun.processed.length = 1 ∧
    oneFrameRun.frameNumbers = [1] ∧
    oneFrameRun.persisted = [] ∧
    oneFrameRun.persisted.length ≠ oneFrameRun.processed.length := by
  decide

/-- Claim C2 amended: `run_demo` never appends a persisted record — the
effect trace of every run, on every source and in every environment,
contains no persistence effect; the repository has no result logger. -/
theorem run_demo_persisted_empty
    (env : Env) (extract : Nat → String → Option String)
    (content : String → List Frame) (source : String) (fc0 : Nat) :
    (run_demo env extract content source fc0).persisted = [] := by
  rcases h : connect_to_source extract content source with ⟨o, effs⟩
  have heffs := connect_to_source_effects extract content source
  rw [h] at heffs
  cases o with
  | none =>
    simp only [run_demo, h, RunResult.persisted]
    rcases heffs with rfl | rfl <;> rfl
  | some cap =>
    obtain ⟨he, -⟩ := connect_to_source_success extract content source cap effs h
    subst he
    simp only [run_demo, h, RunResult.persisted, List.nil_append]
    rw [persistedOf_append, runLoop_persisted]
    rfl

/-- Claim C3 counterexample: `run_demo` performs no reset of
`self.frame_count` at the start of a run.  After a five-frame run leaves
the counter at 5, a second run started directly on the same
`DemoPersonCounter` (without going through the menu loop of `main`, whose
line 263 resets the counter only after a menu iteration ends) numbers its
first frame 6, not 1 — refuting the claim that the counter is reset at
the start of each new source run rather than merely after a run ends. -/
theorem frame_counter_not_reset_counterexample :
    (run_demo cleanEnv noExtract fiveFrameContent "a.mp4" 0).frame_count = 5 ∧
    (run_demo cleanEnv noExtract oneFrameContent "b.mp4"
      (run_demo cleanEnv noExtract fiveFrameContent "a.mp4" 0).frame_count).frameNumbers
      = [6] ∧
    (run_demo cleanEnv noExtract oneFrameContent "b.mp4"
      (run_demo cleanEnv noExtract fiveFrameContent "a.mp4" 0).frame_count).frameNumbers.head?
      ≠ some 1 := by
  decide

/-- Claim C3 amended: within a single run the frame numbers increase by
exactly 1 per processed frame, starting at one above the value
`self.frame_count` had when the run began (so a run entered with the
counter at 0 numbers its frames 1, 2, 3, …); `run_demo` itself does not
reset the counter — instead `main` sets it back to 0 at the end of each
menu iteration (line 263), which is what makes every run launched through
the menu start at 1. -/
theorem frameNumbers_consecutive_and_menu_reset
    (env : Env) (extract : Nat → String → Option String)
    (content : String → List Frame) (source : String) (fc0 : Nat) :
    (run_demo env extract content source fc0).frameNumbers =
      List.range' (fc0 + 1)
        (run_demo env extract content source fc0).frameNumbers.length ∧
    (menu_run env extract content source fc0).2 = 0 := by
  refine ⟨?_, rfl⟩
  rcases h : connect_to_source extract content source with ⟨o, effs⟩
  have heffs := connect_to_source_effects extract content source
  rw [h] at heffs
  cases o with
  | none =>
    simp only [run_demo, h, RunResult.frameNumbers]
    rcases heffs with rfl | rfl <;> rfl
  | some cap =>
    obtain ⟨he, -⟩ := connect_to_source_success extract content source cap effs h
    subst he
    simp only [run_demo, h, RunResult.frameNumbers, List.nil_append]
    rw [detectNumsOf_append, runLoop_detectNums]
    have hnil : detectNumsOf [Effect.release, Effect.destroy] = [] := rfl
    rw [hnil, List.append_nil, List.length_range']

/-- Claim C4: for every source from which a first frame cannot be read,
connection fails — the probe capture is released immediately (the
connection trace is exactly that one release), `None` rather than a live
handle is returned, `run_demo` returns `False`, no display window is ever
shown into, and the persisted log is untouched. -/
theorem connect_fail_releases_and_no_window
    (env : Env) (extract : Nat → String → Option String)
    (content : String → List Frame) (source url : String) (fc0 : Nat)
    (hres : resolve_source extract source = some url)
    (hcontent : content url = []) :
    connect_to_source extract content source = (none, [Effect.release]) ∧
    (run_demo env extract content source fc0).ret = false ∧
    (run_demo env extract content source fc0).releases = 1 ∧
    (run_demo env extract content source fc0).imshows = 0 ∧
    (run_demo env extract content source fc0).persisted = [] := by
  have hc : connect_to_source extract content source =
      (none, [Effect.release]) := by
    unfold connect_to_source
    simp [hres, Capture.read, hcontent]
  refine ⟨hc, ?_, ?_, ?_, ?_⟩ <;>
    simp [run_demo, hc, RunResult.ret, RunResult.releases, RunResult.imshows,
      RunResult.persisted, persistedOf]

/-- Claim C4 witness: connecting to a missing file fails, releases the
probe handle once, returns `False` from the run and opens no window. -/
theorem connect_fail_releases_and_no_window_witness :
    resolve_source noExtract "missing.mp4" = some "missing.mp4" ∧
    emptyContent "missing.mp4" = [] ∧
    connect_to_source noExtract emptyContent "missing.mp4" =
      (none, [Effect.release]) ∧
    (run_demo cleanEnv noExtract emptyContent "missing.mp4" 0).ret = false ∧
    (run_demo cleanEnv noExtract emptyContent "missing.mp4" 0).imshows = 0 :=
  have h := connect_fail_releases_and_no_window cleanEnv noExtract
    emptyContent "missing.mp4" "missing.mp4" 0 (by decide) rfl
  ⟨by decide, rfl, h.1, h.2.1, h.2.2.2.1⟩

/-- Claim C5 counterexample: the claim's decimation formula, instantiated
at skip configuration `skip_n = 1`, says only frame indices that are
multiples of 2 reach detection; but a run over a one-frame source passes
frame index 1 to detection — the code has no frame-skip gate at all. -/
theorem skip_formula_counterexample :
    oneFrameRun.frameNumbers = [1] ∧
    ¬ (∀ i ∈ oneFrameRun.frameNumbers, 2 ∣ i) := by
  decide

/-- Claim C5 amended: `run_demo` implements no frame-skip configuration:
every frame delivered by `cap.read()` is passed to detection, so the
indices passed to detection in a run are exactly the consecutive block
starting one above the entry frame counter, one per frame read — the
claim's formula holds only for `skip_n = 0`. -/
theorem every_read_frame_detected
    (env : Env) (extract : Nat → String → Option String)
    (content : String → List Frame) (source : String) (fc0 : Nat) :
    (run_demo env extract content source fc0).frameNumbers =
      List.range' (fc0 + 1)
        (run_demo env extract content source fc0).processed.length := by
  rcases h : connect_to_source extract content source with ⟨o, effs⟩
  have heffs := connect_to_source_effects extract content source
  rw [h] at heffs
  cases o with
  | none =>
    simp only [run_demo, h, RunResult.frameNumbers]
    rcases heffs with rfl | rfl <;> rfl
  | some cap =>
    obtain ⟨he, -⟩ := connect_to_source_success extract content source cap effs h
    subst he
    simp only [run_demo, h, RunResult.frameNumbers, List.nil_append]
    rw [detectNumsOf_append, runLoop_detectNums]
    have hnil : detectNumsOf [Effect.release, Effect.destroy] = [] := rfl
    rw [hnil, List.append_nil]

/-- Claim C7 counterexample: a run whose detection call raises on the
first frame and a run that completes normally at end-of-stream both
return `True` — the only caller-visible output of `run_demo` — so the
caller cannot distinguish a faulted run from a normal completion; the
`except` clause only prints the error and the `return True` in the
`finally` block overrides every outcome. -/
theorem fault_indistinguishable_counterexample :
    (run_demo faultEnv noExtract oneFrameContent "demo.mp4" 0).exit =
      ExitKind.faulted ∧
    oneFrameRun.exit = ExitKind.eos ∧
    (run_demo faultEnv noExtract oneFrameContent "demo.mp4" 0).ret = true ∧
    oneFrameRun.ret = true := by
  decide

/-- Claim C7 amended: every mid-run fault — the detection call or the
overlay/display step raising at any iteration the loop reaches (a read
failure instead makes `cap.read()` return `ret = False`, which breaks the
loop through the same cleanup) — is fatal to the current run only: the
loop terminates at the faulting frame and the release step still runs
exactly once, but the error is not surfaced to the caller: `run_demo`
returns `True` exactly as on normal completion, because the fault is
caught, printed, and overridden by the `return True` in the `finally`
block. -/
theorem fault_fatal_release_still_runs
    (env : Env) (extract : Nat → String → Option String)
    (content : String → List Frame) (source : String) (fc0 : Nat)
    (cap : Capture) (effs : List Effect) (k : Nat)
    (h : connect_to_source extract content source = (some cap, effs))
    (hk1 : fc0 < k) (hk2 : k ≤ fc0 + cap.frames.length)
    (hquiet : ∀ j, fc0 < j → j < k →
      env.keys j ≠ some 'q' ∧ env.detectFault j = false ∧
      env.renderFault j = false ∧ env.interrupt j = false)
    (hint : env.interrupt k = false)
    (hfault : env.detectFault k = true ∨ env.renderFault k = true) :
    (run_demo env extract content source fc0).exit = ExitKind.faulted ∧
    (run_demo env extract content source fc0).ret = true ∧
    (run_demo env extract content source fc0).frame_count = k ∧
    (run_demo env extract content source fc0).releases = 1 ∧
    (run_demo env extract content source fc0).destroys = 1 := by
  obtain ⟨he, url, hurl, hcap, -⟩ :=
    connect_to_source_success extract content source cap effs h
  subst he
  subst hcap
  have hloop := runLoop_fault_at env (content url) fc0 k hk1 hk2 hquiet
    hint hfault
  simp only [run_demo, h, List.nil_append, List.drop_zero]
  refine ⟨hloop.1, ?_, hloop.2, ?_, ?_⟩ <;>
    simp [RunResult.releases, RunResult.destroys, List.count_append,
      runLoop_count_release, runLoop_count_destroy, List.count_cons]

/-- Claim C7 witness: with a render/display fault on frame 2 of a quiet
two-frame run, the run exits as faulted at frame 2, still returns `True`,
and releases the capture and windows exactly once. -/
theorem fault_fatal_release_still_runs_witness :
    renderFaultEnv.renderFault 2 = true ∧
    (run_demo renderFaultEnv noExtract twoFrameContent "demo.mp4" 0).exit =
      ExitKind.faulted ∧
    (run_demo renderFaultEnv noExtract twoFrameContent "demo.mp4" 0).ret
      = true ∧
    (run_demo renderFaultEnv noExtract twoFrameContent "demo.mp4" 0).frame_count
      = 2 ∧
    (run_demo renderFaultEnv noExtract twoFrameContent "demo.mp4" 0).releases
      = 1 ∧
    (run_demo renderFaultEnv noExtract twoFrameContent "demo.mp4" 0).destroys
      = 1 :=
  have h := fault_fatal_release_still_runs renderFaultEnv noExtract
    twoFrameContent "demo.mp4" 0
    { frames := [⟨640, 480, 1⟩, ⟨640, 480, 2⟩], pos := 0 } [] 2
    (by decide) (by decide) (by decide)
    (fun j hj1 hj2 => by
      have hj : j = 1 := by omega
      subst hj
      exact ⟨by decide, rfl, rfl, rfl⟩)
    rfl (Or.inr rfl)
  ⟨rfl, h.1, h.2.1, h.2.2.1, h.2.2.2.1, h.2.2.2.2⟩

/-- Claim C8: for every source identifier containing a YouTube domain,
resolution invokes the external extraction collaborator with the quality
ceiling 720 (the source requests format `'best[height<=720]'`), and if the
collaborator fails the resolution yields no URL: `connect_to_source`
returns `None` without opening anything, and the run returns `False`
having shown no frame — it never proceeds with any other URL. -/
theorem youtube_resolution_cap_and_failure
    (extract : Nat → String → Option String) (source : String)
    (hyt : isYoutubeSource source = true) :
    resolve_source extract source = extract 720 source ∧
    (extract 720 source = none →
      ∀ content : String → List Frame,
        connect_to_source extract content source = (none, []) ∧
        ∀ (env : Env) (fc0 : Nat),
          (run_demo env extract content source fc0).ret = false ∧
          (run_demo env extract content source fc0).imshows = 0) := by
  have h1 : resolve_source extract source = extract 720 source := by
    unfold resolve_source get_youtube_stream_url
    rw [hyt]
    simp
  refine ⟨h1, fun hfail content => ?_⟩
  have hc : connect_to_source extract content source = (none, []) := by
    unfold connect_to_source
    rw [h1, hfail]
  refine ⟨hc, fun env fc0 => ?_⟩
  constructor <;>
    simp [run_demo, hc, RunResult.ret, RunResult.imshows]

/-- Claim C8 witness: a YouTube URL with a failing extractor resolves to
nothing, the connection fails with no side effect, and the run returns
`False`. -/
theorem youtube_resolution_cap_and_failure_witness :
    isYoutubeSource ytSource = true ∧
    resolve_source noExtract ytSource = none ∧
    connect_to_source noExtract oneFrameContent ytSource = (none, []) ∧
    (run_demo cleanEnv noExtract oneFrameContent ytSource 0).ret = false :=
  have h := youtube_resolution_cap_and_failure noExtract ytSource (by decide)
  ⟨by decide, h.1.trans rfl, (h.2 rfl oneFrameContent).1,
   ((h.2 rfl oneFrameContent).2 cleanEnv 0).1⟩

/-- Claim C9 counterexample: for a person box with top-left corner at
`(10, 5)` and confidence rendered `"0.90"`, the renderer draws the label
`"Personne 0.90"` (not `"Person 0.90"`, which appears nowhere in the
drawing trace) at `(10, -5)`: the y-coordinate `y1 - 10` is not clamped
and is negative, i.e. the label renders off-frame. -/
theorem person_label_counterexample :
    (detect_persons [badDet]).2 =
      [DrawOp.rect 10 5 50 60, DrawOp.text "Personne 0.90" 10 (-5)] ∧
    (¬ ∃ x y, DrawOp.text ("Person " ++ "0.90") x y ∈
      (detect_persons [badDet]).2) ∧
    DrawOp.text "Personne 0.90" 10 (-5) ∈ (detect_persons [badDet]).2 ∧
    (-5 : Int) < 0 := by
  refine ⟨by decide, ?_, by decide, by decide⟩
  rintro ⟨x, y, hmem⟩
  have hops : (detect_persons [badDet]).2 =
      [DrawOp.rect 10 5 50 60, DrawOp.text "Personne 0.90" 10 (-5)] := by
    decide
  rw [hops] at hmem
  simp at hmem

/-- Claim C9 amended: for every person box the renderer draws its rectangle
and the label `"Personne {confidence:.2f}"` at `(x1, y1 - 10)`, i.e.
10 pixels above the box's top-left corner with no clamping, so the label
can render off-frame when the box starts near the top. -/
theorem detect_persons_draws
    (dets : List Det) (d : Det) (hd : d ∈ dets) (hc : d.cls = 0) :
    DrawOp.rect d.x1 d.y1 d.x2 d.y2 ∈ (detect_persons dets).2 ∧
    DrawOp.text ("Personne " ++ d.confStr) d.x1 (d.y1 - 10) ∈
      (detect_persons dets).2 := by
  induction dets with
  | nil => cases hd
  | cons a rest ih =>
    rcases List.mem_cons.mp hd with rfl | hmem
    · constructor <;> simp [detect_persons, hc, drawDet]
    · have hrec := ih hmem
      by_cases ha : a.cls = 0
      · simp only [detect_persons, ha, if_pos]
        exact ⟨List.mem_append_right _ hrec.1,
          List.mem_append_right _ hrec.2⟩
      · simpa [detect_persons, ha] using hrec

/-- Claim C9 witness: for the concrete person box `badDet` the rectangle
and the `"Personne 0.90"` label at `(10, -5)` are both drawn. -/
theorem detect_persons_draws_witness :
    badDet ∈ [badDet] ∧ badDet.cls = 0 ∧
    DrawOp.rect 10 5 50 60 ∈ (detect_persons [badDet]).2 ∧
    DrawOp.text ("Personne " ++ "0.90") 10 (5 - 10) ∈
      (detect_persons [badDet]).2 :=
  have h := detect_persons_draws [badDet] badDet (List.mem_singleton.mpr rfl)
    rfl
  ⟨List.mem_singleton.mpr rfl, rfl, h.1, h.2⟩

/-- Claim C10: when the connection probe succeeds, `connect_to_source`
resets the capture's frame position to 0 (line 68) before returning the
handle, so the frame consumed by the probe read is re-delivered and the
run's first processed frame is the stream's first frame. -/
theorem connect_resets_position
    (env : Env) (extract : Nat → String → Option String)
    (content : String → List Frame) (source url : String) (f : Frame)
    (fs : List Frame) (fc0 : Nat)
    (hres : resolve_source extract source = some url)
    (hcontent : content url = f :: fs)
    (hint : env.interrupt (fc0 + 1) = false) :
    connect_to_source extract content source =
      (some { frames := f :: fs, pos := 0 }, []) ∧
    (run_demo env extract content source fc0).processed.head? = some f := by
  have hc : connect_to_source extract content source =
      (some { frames := f :: fs, pos := 0 }, []) := by
    unfold connect_to_source
    simp [hres, Capture.read, hcontent]
  refine ⟨hc, ?_⟩
  simp only [run_demo, hc, List.nil_append, List.drop_zero]
  cases hD : env.detectFault (fc0 + 1) with
  | true => simp [runLoop, hint, hD]
  | false =>
    cases hR : env.renderFault (fc0 + 1) with
    | true => simp [runLoop, hint, hD, hR]
    | false =>
      by_cases hK : env.keys (fc0 + 1) = some 'q' <;>
        simp [runLoop, hint, hD, hR, hK]

/-- Claim C10 witness: on a one-frame source the connection returns the
capture at position 0 and the run's first processed frame is that first
frame. -/
theorem connect_resets_position_witness :
    resolve_source noExtract "demo.mp4" = some "demo.mp4" ∧
    oneFrameContent "demo.mp4" = [testFrame] ∧
    connect_to_source noExtract oneFrameContent "demo.mp4" =
      (some { frames := [testFrame], pos := 0 }, []) ∧
    (run_demo cleanEnv noExtract oneFrameContent "demo.mp4" 0).processed.head?
      = some testFrame :=
  have h := connect_resets_position cleanEnv noExtract oneFrameContent
    "demo.mp4" "demo.mp4" testFrame [] 0 (by decide) rfl rfl
  ⟨by decide, rfl, h.1, h.2⟩
